import Mathlib

/-!
Verification development for `seamove/cmove.py` ("Sea Move", a continuous
data mover).  The Python source is shallowly embedded below: directories are
finite lists of named entries, the per-file move logic of `cmove._move` is a
pure step function, the worker pool drain of `cmove` is a fold over the
scanned entries, and the main loop of `main` is a fuel-indexed step function
driven by an external interrupt schedule.  Stdlib primitives the code calls
(`shutil.move`, `os.remove`, `os.path.isfile`, `ThreadPoolExecutor`) are
modelled with their documented CPython semantics.
-/

namespace Seamove

/-- The kinds of directory entry the code's filters can distinguish.
`os.path.isfile` follows symbolic links, so a symlink is classified by what
it resolves to.  `special` covers FIFOs, sockets, device nodes and dangling
symlinks. -/
inductive EntryKind
  | regularFile
  | directory
  | symlinkToFile
  | symlinkToDir
  | special
deriving DecidableEq

/-- `os.path.isfile(path)`: true when the path resolves to a regular file,
following symbolic links. -/
def isfile : EntryKind → Bool
  | .regularFile => true
  | .symlinkToFile => true
  | .directory => false
  | .symlinkToDir => false
  | .special => false

/-- One immediate entry of the source directory: its base name and kind. -/
structure Entry where
  name : String
  kind : EntryKind
deriving DecidableEq

/-- The filesystem state the engine mutates: the immediate entries of the
source directory and the set of names present in the destination directory
(the duplicate heuristic only ever compares names). -/
structure FS where
  src : List Entry
  dst : List String
deriving DecidableEq

/-- Severity of a log emission: `log.info`, `log.warning`, `log.error`. -/
inductive Severity
  | info
  | warning
  | error
deriving DecidableEq

/-- One structured log event: severity and the file path it concerns. -/
structure Event where
  sev : Severity
  file : String
deriving DecidableEq

/-- The fate of one move task in `_move`:
`moved` — `shutil.move` succeeded (logged at info level);
`duplicateRemoved` — `shutil.Error` ("Destination path ... already exists")
was caught, the source copy removed (logged at warning level);
`uncaughtError` — any other exception escaped `_move`; it is stored in the
`Future` returned by `executor.submit`, which the code discards. -/
inductive MoveResult
  | moved
  | duplicateRemoved
  | uncaughtError (detail : String)
deriving DecidableEq

/-- Outcome of `shutil.move(file, dest)` followed by the `except shutil.Error`
handler of `_move`.  `shutil.move` first checks whether `dest/<basename>`
exists and raises `shutil.Error` if so; only otherwise does it attempt the
rename, which may fail with some other `OSError` — modelled by the `oracle`
(`some detail` means the underlying primitive fails with that error). -/
def moveOutcome (dst : List String) (oracle : String → Option String)
    (name : String) : MoveResult :=
  if name ∈ dst then
    MoveResult.duplicateRemoved
  else
    match oracle name with
    | some detail => MoveResult.uncaughtError detail
    | none => MoveResult.moved

/-- The log events `_move` emits for one task.  `log.info` fires only after a
successful `shutil.move`; `log.warning` fires in the `shutil.Error` handler;
on any other exception control leaves `_move` before any log call, so nothing
is emitted. -/
def moveEvents (r : MoveResult) (name : String) : List Event :=
  match r with
  | .moved => [⟨Severity.info, name⟩]
  | .duplicateRemoved => [⟨Severity.warning, name⟩]
  | .uncaughtError _ => []

/-- Filesystem effect of one task.  A successful move removes the entry from
the source and adds its name to the destination; the duplicate branch runs
`os.remove(file)` on the source only; an uncaught error leaves everything
untouched. -/
def applyOutcome (fs : FS) (name : String) : MoveResult → FS
  | .moved => ⟨fs.src.filter (fun x => x.name != name), name :: fs.dst⟩
  | .duplicateRemoved => ⟨fs.src.filter (fun x => x.name != name), fs.dst⟩
  | .uncaughtError _ => fs

/-- One complete execution of `_move(file, destination)` on entry `e`:
the resulting filesystem, the task's fate, and the events emitted. -/
def moveStep (oracle : String → Option String) (fs : FS) (e : Entry) :
    FS × MoveResult × List Event :=
  let r := moveOutcome fs.dst oracle e.name
  (applyOutcome fs e.name r, r, moveEvents r e.name)

/-- Executes every submitted task.  Tasks touch distinct files (directory
entries have unique names) and share no mutable state, so the pool's
interleaving is linearised as a left-to-right fold.  Returns the final
filesystem, one `(file, result)` pair per task in submission order, and the
concatenated event log. -/
def runTasks (oracle : String → Option String) :
    List Entry → FS → FS × List (String × MoveResult) × List Event
  | [], fs => (fs, [], [])
  | e :: rest, fs =>
    let s := moveStep oracle fs e
    let t := runTasks oracle rest s.1
    (t.1, (e.name, s.2.1) :: t.2.1, s.2.2 ++ t.2.2)

/-- The scan `filter(os.path.isfile, map(str, target.glob("*")))`:
`glob("*")` yields the immediate entries, one level, no recursion (the model
has no notion of descending at all), and only entries passing `isfile` are
submitted to the pool. -/
def scan (src : List Entry) : List Entry :=
  src.filter (fun e => isfile e.kind)

/-- `ThreadPoolExecutor.__init__` worker-count resolution (CPython):
`max_workers=None` gives `min(32, (os.cpu_count() or 1) + 4)`; a value
`<= 0` raises `ValueError("max_workers must be greater than 0")`. -/
def resolveWorkers (cpuCount : Nat) : Option Int → Except String Int
  | none => Except.ok (min 32 ((if cpuCount = 0 then 1 else (cpuCount : Int)) + 4))
  | some n =>
    if n ≤ 0 then Except.error "max_workers must be greater than 0"
    else Except.ok n

/-- `cmove(target, destination, threads)`: builds the pool (which may raise
`ValueError` for a non-positive `threads`), submits a task per scanned file,
and — because `with ThreadPoolExecutor(...)` calls `shutdown(wait=True)` on
exit — returns only once every task has finished. -/
def cmove (threads : Option Int) (cpuCount : Nat)
    (oracle : String → Option String) (fs : FS) :
    Except String (FS × List (String × MoveResult) × List Event) :=
  match resolveWorkers cpuCount threads with
  | .error e => Except.error e
  | .ok _ => Except.ok (runTasks oracle (scan fs.src) fs)

/-- `dir_validator(directory)`: returns the resolved path when it is a
directory, otherwise logs one error-level event and returns `None`. -/
def dir_validator (resolvesToDir : Bool) (path : String) :
    Option String × List Event :=
  if resolvesToDir then (some path, [])
  else (none, [⟨Severity.error, path⟩])

/-- The startup guard in `main`: `if not (args.target and args.destination):
raise SystemExit()`.  `SystemExit()` carries no code, so the interpreter
exits with status 0.  `some code` means the process exits before the loop
with that status; `none` means it proceeds into the loop. -/
def mainStartup (target destination : Option String) : Option Nat :=
  if target.isSome && destination.isSome then none else some 0

/-- The body of `wait`'s progress loop: `while not progress.finished:
progress.update(task, advance=1); time.sleep(1)`.  In rich, `Task.finished`
is `finished_time is not None`, and `finished_time` is set only inside
`Progress.update()` (when the advanced total is reached); `add_task` leaves
it `None`.  So from an unfinished task with `completed` steps done, each
iteration first advances by one — marking the task finished once
`completed + 1` reaches `total` — and then sleeps one second before the loop
condition is re-tested.  The body therefore runs, and sleeps, at least once,
even when `total` is already non-positive.  Returns the number of
`time.sleep(1)` calls performed. -/
def progressLoop (total : Int) (completed : Nat) : Nat :=
  if h : ((completed : Int) + 1) < total then progressLoop total (completed + 1) + 1
  else 1
termination_by (total - completed).toNat
decreasing_by
  omega

/-- `wait(seconds)`: `if not seconds: return` makes `None` and `0` (the falsy
values) return at once; any other value — negative integers included, they
are truthy — enters the progress loop with a freshly added, unfinished task.
The modelled observable is the number of seconds slept (`time.sleep(1)`
calls). -/
def wait (seconds : Option Int) : Nat :=
  match seconds with
  | none => 0
  | some s => if s = 0 then 0 else progressLoop s 0

/-- What a run of `main`'s try-block looks like after a given amount of fuel:
still looping, exited via `SystemExit` with a status code, or terminated
abnormally by an exception the `except KeyboardInterrupt` clause does not
catch. -/
inductive RunResult
  | running (fs : FS)
  | exit (code : Nat) (fs : FS)
  | abnormal (detail : String) (fs : FS)
deriving DecidableEq

/-- The main loop `while True: cmove(...); wait(...)` wrapped in
`try ... except KeyboardInterrupt: raise SystemExit()`.  `interrupt i` says
whether the external interrupt signal arrives during iteration `i`; on
interrupt the handler raises `SystemExit()` — status 0.  Any exception a
batch raises (e.g. the pool's `ValueError`) is not caught and terminates the
loop abnormally.  `oracle i` is iteration `i`'s I/O-failure oracle. -/
def mainLoop (threads : Option Int) (cpuCount : Nat)
    (oracle : Nat → String → Option String) (interrupt : Nat → Bool) :
    Nat → Nat → FS → RunResult
  | _, 0, fs => RunResult.running fs
  | i, fuel + 1, fs =>
    if interrupt i then RunResult.exit 0 fs
    else
      match cmove threads cpuCount (oracle i) fs with
      | .error e => RunResult.abnormal e fs
      | .ok out => mainLoop threads cpuCount oracle interrupt (i + 1) fuel out.1

/-- Whether a directory listing contains an entry with the given base name. -/
def hasFile (entries : List Entry) (name : String) : Bool :=
  entries.any (fun x => x.name == name)

/-! ### Helper lemmas -/

/-- A filtered-out name never survives `applyOutcome`'s source filter. -/
theorem hasFile_filter_self (l : List Entry) (n : String) :
    hasFile (l.filter (fun x => x.name != n)) n = false := by
  simp only [hasFile, List.any_eq_false, List.mem_filter, bne_iff_ne, ne_eq,
    beq_iff_eq]
  intro x hx
  exact hx.2

/-- Every event of `_move` names the file the task was submitted for. -/
theorem moveEvents_file (r : MoveResult) (n : String) (ev : Event)
    (h : ev ∈ moveEvents r n) : ev.file = n := by
  cases r <;> simp [moveEvents] at h <;> simp [h]

/-- A task never touches an entry with a different name. -/
theorem moveStep_preserves (oracle : String → Option String) (fs : FS)
    (d e : Entry) (hmem : e ∈ fs.src) (hne : e.name ≠ d.name) :
    e ∈ (moveStep oracle fs d).1.src := by
  unfold moveStep
  cases moveOutcome fs.dst oracle d.name <;>
    simp [applyOutcome, List.mem_filter, hmem, hne]

/-- The pool produces exactly one outcome per submitted task, for that
task's file, in submission order. -/
theorem runTasks_names (oracle : String → Option String) (l : List Entry)
    (fs : FS) : (runTasks oracle l fs).2.1.map Prod.fst = l.map Entry.name := by
  induction l generalizing fs with
  | nil => simp [runTasks]
  | cons e rest ih => simp [runTasks, ih]

/-- A source entry whose name no submitted task carries is still in the
source directory when the batch completes. -/
theorem runTasks_preserves (oracle : String → Option String) (l : List Entry)
    (fs : FS) (e : Entry) (hmem : e ∈ fs.src)
    (hname : e.name ∉ l.map Entry.name) :
    e ∈ (runTasks oracle l fs).1.src := by
  induction l generalizing fs with
  | nil => simpa [runTasks] using hmem
  | cons d rest ih =>
    simp only [List.map_cons, List.mem_cons, not_or] at hname
    exact ih _ (moveStep_preserves oracle fs d e hmem hname.1) hname.2

/-- Every event a batch emits names one of the submitted files. -/
theorem runTasks_events_mem (oracle : String → Option String) (l : List Entry)
    (fs : FS) (ev : Event) (h : ev ∈ (runTasks oracle l fs).2.2) :
    ev.file ∈ l.map Entry.name := by
  induction l generalizing fs with
  | nil => simp [runTasks] at h
  | cons d rest ih =>
    simp only [runTasks, List.mem_append] at h
    rcases h with h | h
    · simp [moveEvents_file _ _ _ h]
    · simp [ih _ h]

/-! ### Claims -/

/-- C1: a move that fails because the destination already holds an entry of
the same name is not fatal: `_move` catches the `shutil.Error`, removes the
source file, emits exactly one warning-level event for that file, and the
condition never reaches the caller as a failure (the task's fate is
`duplicateRemoved`, not an error). -/
theorem duplicate_removed_not_fatal (oracle : String → Option String)
    (fs : FS) (e : Entry) (h : e.name ∈ fs.dst) :
    moveStep oracle fs e =
      (⟨fs.src.filter (fun x => x.name != e.name), fs.dst⟩,
        MoveResult.duplicateRemoved, [⟨Severity.warning, e.name⟩]) := by
  simp [moveStep, moveOutcome, h, applyOutcome, moveEvents]

theorem duplicate_removed_not_fatal_witness :
    moveStep (fun _ => none)
        ⟨[⟨"c.txt", EntryKind.regularFile⟩], ["c.txt"]⟩
        ⟨"c.txt", EntryKind.regularFile⟩ =
      (⟨[], ["c.txt"]⟩, MoveResult.duplicateRemoved,
        [⟨Severity.warning, "c.txt"⟩]) :=
  (duplicate_removed_not_fatal (fun _ => none)
    ⟨[⟨"c.txt", EntryKind.regularFile⟩], ["c.txt"]⟩
    ⟨"c.txt", EntryKind.regularFile⟩ (by decide)).trans (by decide)

/-- C2 counterexample: for a move that fails with a non-duplicate error
(simulated permission error on `d.txt`), the code emits no event at all —
the exception escapes `_move` before any log call and is stored in the
discarded `Future` — contradicting the claim that one error-level `Failed`
event is emitted for the file. -/
theorem failed_move_no_event_counterexample :
    (moveStep (fun _ => some "permission denied")
        ⟨[⟨"d.txt", EntryKind.regularFile⟩], []⟩
        ⟨"d.txt", EntryKind.regularFile⟩).2.2 = [] ∧
    (moveStep (fun _ => some "permission denied")
        ⟨[⟨"d.txt", EntryKind.regularFile⟩], []⟩
        ⟨"d.txt", EntryKind.regularFile⟩).2.1 =
      MoveResult.uncaughtError "permission denied" := by
  constructor <;> rfl

/-- C2 amended: a move that fails for any reason other than the
destination-occupied condition leaves the source file untouched, emits NO
event (the exception is captured by the task's discarded future, so nothing
error-level is ever logged), does not propagate the error, and the batch
continues processing the remaining files. -/
theorem failed_move_silent (oracle : String → Option String) (fs : FS)
    (e : Entry) (rest : List Entry) (d : String)
    (h1 : e.name ∉ fs.dst) (h2 : oracle e.name = some d) :
    moveStep oracle fs e = (fs, MoveResult.uncaughtError d, []) ∧
    (runTasks oracle (e :: rest) fs).2.1 =
      (e.name, MoveResult.uncaughtError d) :: (runTasks oracle rest fs).2.1 ∧
    (runTasks oracle (e :: rest) fs).2.2 = (runTasks oracle rest fs).2.2 ∧
    (runTasks oracle (e :: rest) fs).1 = (runTasks oracle rest fs).1 := by
  have hstep : moveStep oracle fs e = (fs, MoveResult.uncaughtError d, []) := by
    simp [moveStep, moveOutcome, h1, h2, applyOutcome, moveEvents]
  refine ⟨hstep, ?_, ?_, ?_⟩ <;> simp [runTasks, hstep]

theorem failed_move_silent_witness :
    (runTasks (fun _ => some "permission denied")
        [⟨"d.txt", EntryKind.regularFile⟩]
        ⟨[⟨"d.txt", EntryKind.regularFile⟩], []⟩).2.2 =
      (runTasks (fun _ => some "permission denied") []
        ⟨[⟨"d.txt", EntryKind.regularFile⟩], []⟩).2.2 :=
  (failed_move_silent (fun _ => some "permission denied")
    ⟨[⟨"d.txt", EntryKind.regularFile⟩], []⟩
    ⟨"d.txt", EntryKind.regularFile⟩ [] "permission denied"
    (by decide) rfl).2.2.1

/-- C3: after its move task completes, a file that was present in the source
at scan start is present in exactly one of the two directories: it remains
in the source if and only if its name is not in the destination (moved or
duplicate-removed tasks take it out of the source and the name is then in
the destination; a failed task leaves it solely in the source). -/
theorem file_in_exactly_one_place (oracle : String → Option String) (fs : FS)
    (e : Entry) (hsrc : e ∈ fs.src) (_hk : isfile e.kind = true) :
    (hasFile (moveStep oracle fs e).1.src e.name = true ↔
      e.name ∉ (moveStep oracle fs e).1.dst) := by
  unfold moveStep
  by_cases hmem : e.name ∈ fs.dst
  · simp [moveOutcome, hmem, applyOutcome, hasFile_filter_self]
  · cases horacle : oracle e.name with
    | some d =>
      simp only [moveOutcome, if_neg hmem, horacle, applyOutcome]
      constructor
      · exact fun _ => hmem
      · intro _
        simp [hasFile, List.any_eq_true]
        exact ⟨e, hsrc, rfl⟩
    | none =>
      simp [moveOutcome, hmem, horacle, applyOutcome, hasFile_filter_self]

theorem file_in_exactly_one_place_witness :
    (hasFile (moveStep (fun _ => none)
        ⟨[⟨"a.txt", EntryKind.regularFile⟩], []⟩
        ⟨"a.txt", EntryKind.regularFile⟩).1.src "a.txt" = true ↔
      "a.txt" ∉ (moveStep (fun _ => none)
        ⟨[⟨"a.txt", EntryKind.regularFile⟩], []⟩
        ⟨"a.txt", EntryKind.regularFile⟩).1.dst) :=
  file_in_exactly_one_place (fun _ => none)
    ⟨[⟨"a.txt", EntryKind.regularFile⟩], []⟩
    ⟨"a.txt", EntryKind.regularFile⟩ (by decide) (by decide)

/-- C4 counterexample: when the target path does not resolve to an existing
directory, `dir_validator` returns `None` and `main` does exit before the
loop — but via `raise SystemExit()` with no code, so the exit status is 0,
not the claimed non-zero, error-indicating status. -/
theorem invalid_path_exit_status_zero_counterexample :
    (dir_validator false "/missing").1 = none ∧
    mainStartup (dir_validator false "/missing").1
      (dir_validator true "/data").1 = some 0 := by
  constructor <;> rfl

/-- C4 amended: if the source path or the destination path does not resolve
to an existing directory, the process logs an error-level message and exits
immediately before entering the scan loop, but with exit status 0
(`SystemExit()` carries no code), not a non-zero status. -/
theorem invalid_path_exits_before_loop (tOk dOk : Bool) (tp dp : String)
    (h : tOk = false ∨ dOk = false) :
    mainStartup (dir_validator tOk tp).1 (dir_validator dOk dp).1 = some 0 ∧
    ((dir_validator tOk tp).2 ++ (dir_validator dOk dp).2) ≠ [] := by
  rcases h with h | h
  · subst h
    cases dOk <;> simp [dir_validator, mainStartup]
  · subst h
    cases tOk <;> simp [dir_validator, mainStartup]

theorem invalid_path_exits_before_loop_witness :
    mainStartup (dir_validator false "/missing").1
        (dir_validator true "/data").1 = some 0 :=
  (invalid_path_exits_before_loop false true "/missing" "/data" (Or.inl rfl)).1

/-- C5: `cmove` returns to its caller only once every dispatched task has
finished — the value it hands back already records one outcome (success,
duplicate removal, or failure) per scanned file, in submission order; and
the main loop starts the next batch only from the fully drained final state
of the previous one, so batches on the same pair never overlap. -/
theorem batch_drains_before_return (threads : Option Int) (cpuCount : Nat)
    (oracle : String → Option String) (fs : FS)
    (out : FS × List (String × MoveResult) × List Event)
    (h : cmove threads cpuCount oracle fs = Except.ok out) :
    out.2.1.map Prod.fst = (scan fs.src).map Entry.name ∧
    ∀ (loopOracle : Nat → String → Option String) (interrupt : Nat → Bool)
      (i fuel : Nat), interrupt i = false → loopOracle i = oracle →
      mainLoop threads cpuCount loopOracle interrupt i (fuel + 1) fs =
        mainLoop threads cpuCount loopOracle interrupt (i + 1) fuel out.1 := by
  constructor
  · unfold cmove at h
    cases hw : resolveWorkers cpuCount threads with
    | error e => rw [hw] at h; exact absurd h (by simp)
    | ok w =>
      rw [hw] at h
      simp only [Except.ok.injEq] at h
      rw [← h]
      exact runTasks_names oracle (scan fs.src) fs
  · intro loopOracle interrupt i fuel hni horacle
    simp only [mainLoop, hni, Bool.false_eq_true, if_false, horacle, h]

theorem batch_drains_before_return_witness :
    ((runTasks (fun _ => none)
        (scan [⟨"a.txt", EntryKind.regularFile⟩, ⟨"b.txt", EntryKind.regularFile⟩])
        ⟨[⟨"a.txt", EntryKind.regularFile⟩, ⟨"b.txt", EntryKind.regularFile⟩], []⟩).2.1.map
      Prod.fst) =
      (scan [⟨"a.txt", EntryKind.regularFile⟩,
        ⟨"b.txt", EntryKind.regularFile⟩]).map Entry.name :=
  (batch_drains_before_return none 2 (fun _ => none)
    ⟨[⟨"a.txt", EntryKind.regularFile⟩, ⟨"b.txt", EntryKind.regularFile⟩], []⟩
    _ rfl).1

/-- C6 counterexample: with `worker_count = 0` the engine does not fall back
to a platform default — `ThreadPoolExecutor` raises
`ValueError("max_workers must be greater than 0")`, so the batch fails
instead of running. -/
theorem zero_workers_fail_counterexample :
    cmove (some 0) 4 (fun _ => none)
        ⟨[⟨"a.txt", EntryKind.regularFile⟩], []⟩ =
      Except.error "max_workers must be greater than 0" := by
  rfl

/-- C6 amended: when `worker_count` is unspecified (`None`) the batch runs
with a bounded pool of positive, platform-derived size
(`min(32, cpu_count + 4)` with `cpu_count or 1`); but when `worker_count`
is ≤ 0, `ThreadPoolExecutor` raises `ValueError` and the batch fails rather
than running with a default. -/
theorem worker_count_default_only_for_none (cpuCount : Nat)
    (oracle : String → Option String) (fs : FS) (n : Int) (h : n ≤ 0) :
    cmove none cpuCount oracle fs =
      Except.ok (runTasks oracle (scan fs.src) fs) ∧
    (∃ w, resolveWorkers cpuCount none = Except.ok w ∧ 0 < w ∧ w ≤ 32) ∧
    cmove (some n) cpuCount oracle fs =
      Except.error "max_workers must be greater than 0" := by
  refine ⟨rfl, ?_, ?_⟩
  · refine ⟨min 32 ((if cpuCount = 0 then 1 else (cpuCount : Int)) + 4),
      rfl, ?_, ?_⟩
    · by_cases hc : cpuCount = 0
      · simp [hc]
      · simp [hc]
        omega
    · exact min_le_left _ _
  · simp [cmove, resolveWorkers, h]

theorem worker_count_default_only_for_none_witness :
    cmove (some (-1)) 4 (fun _ => none)
        ⟨[⟨"a.txt", EntryKind.regularFile⟩], []⟩ =
      Except.error "max_workers must be greater than 0" :=
  (worker_count_default_only_for_none 4 (fun _ => none)
    ⟨[⟨"a.txt", EntryKind.regularFile⟩], []⟩ (-1) (by decide)).2.2

/-- C7: the scan never dispatches a non-regular-file entry: such an entry is
not in the scanned list, every scanned entry passes the `isfile` test, the
skipped entry is still in the source directory after the batch (never moved
or descended into), and no event — in particular no error event — ever
names it. -/
theorem non_files_silently_skipped (oracle : String → Option String)
    (fs : FS) (e : Entry) (hnodup : (fs.src.map Entry.name).Nodup)
    (hmem : e ∈ fs.src) (hk : isfile e.kind = false) :
    e ∉ scan fs.src ∧
    (∀ x ∈ scan fs.src, isfile x.kind = true) ∧
    e ∈ (runTasks oracle (scan fs.src) fs).1.src ∧
    ∀ ev ∈ (runTasks oracle (scan fs.src) fs).2.2, ev.file ≠ e.name := by
  have hnotscan : e ∉ scan fs.src := by
    simp [scan, List.mem_filter, hk]
  have hname : e.name ∉ (scan fs.src).map Entry.name := by
    intro hc
    rcases List.mem_map.mp hc with ⟨x, hx, hxe⟩
    have hxsrc : x ∈ fs.src := (List.mem_filter.mp hx).1
    have hxeq : x = e := List.inj_on_of_nodup_map hnodup hxsrc hmem hxe
    exact hnotscan (hxeq ▸ hx)
  refine ⟨hnotscan, ?_, runTasks_preserves oracle _ fs e hmem hname, ?_⟩
  · intro x hx
    exact (List.mem_filter.mp hx).2
  · intro ev hev hc
    exact hname (hc ▸ runTasks_events_mem oracle _ fs ev hev)

theorem non_files_silently_skipped_witness :
    (⟨"sub", EntryKind.directory⟩ : Entry) ∉
      scan [⟨"sub", EntryKind.directory⟩, ⟨"a.txt", EntryKind.regularFile⟩] ∧
    (⟨"sub", EntryKind.directory⟩ : Entry) ∈
      (runTasks (fun _ => none)
        (scan [⟨"sub", EntryKind.directory⟩, ⟨"a.txt", EntryKind.regularFile⟩])
        ⟨[⟨"sub", EntryKind.directory⟩, ⟨"a.txt", EntryKind.regularFile⟩],
          []⟩).1.src :=
  ⟨(non_files_silently_skipped (fun _ => none)
      ⟨[⟨"sub", EntryKind.directory⟩, ⟨"a.txt", EntryKind.regularFile⟩], []⟩
      ⟨"sub", EntryKind.directory⟩ (by decide) (by decide) (by decide)).1,
    (non_files_silently_skipped (fun _ => none)
      ⟨[⟨"sub", EntryKind.directory⟩, ⟨"a.txt", EntryKind.regularFile⟩], []⟩
      ⟨"sub", EntryKind.directory⟩ (by decide) (by decide) (by decide)).2.2.1⟩

/-- With a non-positive total, the first update already reaches the total,
but the iteration it belongs to has been entered: exactly one sleep occurs
before the loop condition is seen to hold. -/
theorem progressLoop_nonpos (total : Int) (completed : Nat)
    (h : total ≤ 0) : progressLoop total completed = 1 := by
  unfold progressLoop
  rw [dif_neg]
  omega

/-- C8 counterexample: with `sleep_interval = -5` the waiting phase is not
skipped.  `-5` is truthy, so `wait` passes the `if not seconds` guard and
enters the progress loop; the freshly added task is unfinished
(`finished_time` is set only inside `update`), so the body runs once — one
`update`, which only then marks the task finished, and one `time.sleep(1)` —
before the condition is re-tested.  The code enforces a one-second pause,
contradicting the claim that the wait is skipped entirely for negative
values. -/
theorem negative_interval_sleeps_counterexample :
    wait (some (-5)) = 1 ∧ wait (some (-5)) ≠ 0 := by
  have h : wait (some (-5)) = 1 := by
    simp only [wait]
    rw [if_neg (by decide)]
    exact progressLoop_nonpos (-5) 0 (by decide)
  exact ⟨h, by rw [h]; decide⟩

/-- C8 amended: when the sleep interval is unset (`None`) or zero, the
waiting phase is skipped entirely — no `time.sleep` call — and the next scan
begins immediately; but a negative interval is truthy and enters the
progress loop, whose body runs exactly once before the task registers as
finished, enforcing a single one-second pause. -/
theorem interval_pause (s : Int) (h : s < 0) :
    wait none = 0 ∧ wait (some 0) = 0 ∧ wait (some s) = 1 := by
  refine ⟨rfl, by simp [wait], ?_⟩
  simp only [wait]
  rw [if_neg (by omega)]
  exact progressLoop_nonpos s 0 (by omega)

theorem interval_pause_witness :
    wait none = 0 ∧ wait (some 0) = 0 ∧ wait (some (-5)) = 1 :=
  interval_pause (-5) (by decide)

/-- A normal loop exit always carries status 0 and requires the interrupt
signal to have fired at some iteration. -/
theorem mainLoop_exit_interrupt (threads : Option Int) (cpuCount : Nat)
    (oracle : Nat → String → Option String) (interrupt : Nat → Bool) :
    ∀ fuel i fs c fs',
      mainLoop threads cpuCount oracle interrupt i fuel fs =
        RunResult.exit c fs' →
      c = 0 ∧ ∃ j, interrupt j = true := by
  intro fuel
  induction fuel with
  | zero =>
    intro i fs c fs' h
    simp [mainLoop] at h
  | succ n ih =>
    intro i fs c fs' h
    by_cases hi : interrupt i
    · simp [mainLoop, hi] at h
      exact ⟨h.1.symm, i, hi⟩
    · simp only [mainLoop, hi, Bool.false_eq_true, if_false] at h
      cases hcm : cmove threads cpuCount (oracle i) fs with
      | error e => rw [hcm] at h; simp at h
      | ok out => rw [hcm] at h; exact ih (i + 1) out.1 c fs' h

/-- C9: receipt of the external interrupt is the only way the loop ends
normally, and it ends with a clean, success-indicating exit: an interrupt at
the current iteration yields `SystemExit` with status 0 and no error; any
normal exit the loop ever produces carries status 0; and if the interrupt
never fires, the loop never terminates normally. -/
theorem interrupt_only_clean_exit (threads : Option Int) (cpuCount : Nat)
    (oracle : Nat → String → Option String) (interrupt : Nat → Bool)
    (i fuel : Nat) (fs : FS) :
    (interrupt i = true →
      mainLoop threads cpuCount oracle interrupt i (fuel + 1) fs =
        RunResult.exit 0 fs) ∧
    (∀ c fs', mainLoop threads cpuCount oracle interrupt i fuel fs =
        RunResult.exit c fs' → c = 0) ∧
    ((∀ j, interrupt j = false) →
      ∀ c fs', mainLoop threads cpuCount oracle interrupt i fuel fs ≠
        RunResult.exit c fs') := by
  refine ⟨fun hi => by simp [mainLoop, hi], ?_, ?_⟩
  · intro c fs' h
    exact (mainLoop_exit_interrupt threads cpuCount oracle interrupt
      fuel i fs c fs' h).1
  · intro hno c fs' h
    rcases (mainLoop_exit_interrupt threads cpuCount oracle interrupt
      fuel i fs c fs' h).2 with ⟨j, hj⟩
    simp [hno j] at hj

theorem interrupt_only_clean_exit_witness :
    mainLoop none 1 (fun _ _ => none) (fun _ => true) 0 (0 + 1) ⟨[], []⟩ =
      RunResult.exit 0 ⟨[], []⟩ :=
  (interrupt_only_clean_exit none 1 (fun _ _ => none) (fun _ => true)
    0 0 ⟨[], []⟩).1 rfl

/-- C10: a source entry that is a symbolic link to a regular file passes the
`os.path.isfile` filter (which follows links), so it is part of the scanned
batch and a move task is dispatched — and completed — for it, exactly as for
a plain regular file. -/
theorem symlink_to_file_dispatched (oracle : String → Option String)
    (fs : FS) (e : Entry) (hmem : e ∈ fs.src)
    (hk : e.kind = EntryKind.symlinkToFile) :
    e ∈ scan fs.src ∧
    e.name ∈ (runTasks oracle (scan fs.src) fs).2.1.map Prod.fst := by
  have h1 : e ∈ scan fs.src := by
    simp [scan, List.mem_filter, hmem, hk, isfile]
  refine ⟨h1, ?_⟩
  rw [runTasks_names]
  exact List.mem_map_of_mem Entry.name h1

theorem symlink_to_file_dispatched_witness :
    (⟨"link.txt", EntryKind.symlinkToFile⟩ : Entry) ∈
      scan [⟨"link.txt", EntryKind.symlinkToFile⟩] ∧
    "link.txt" ∈ (runTasks (fun _ => none)
      (scan [⟨"link.txt", EntryKind.symlinkToFile⟩])
      ⟨[⟨"link.txt", EntryKind.symlinkToFile⟩], []⟩).2.1.map Prod.fst :=
  symlink_to_file_dispatched (fun _ => none)
    ⟨[⟨"link.txt", EntryKind.symlinkToFile⟩], []⟩
    ⟨"link.txt", EntryKind.symlinkToFile⟩ (by decide) rfl

end Seamove
